import Mathlib

/-!
Verification development for the SABA lifecycle orchestrator.

The definitions below are shallow embeddings of the TypeScript engines:
`state.manager.ts` (StateManager), `approval.engine.ts` (ApprovalEngine),
`memory.engine.ts` (approval store operations), `recovery.engine.ts`
(RecoveryEngine), `deployment.engine.ts` (DeploymentEngine) and
`monitor.engine.ts` (MonitorEngine).  Async methods are modelled as pure
state-passing functions; the persistence store is modelled as an
association list; wall-clock time is modelled as a natural number of
milliseconds.
-/

namespace Saba

/-- AgentState enum from `types.ts`. -/
inductive AgentState
  | REQUESTED
  | PLANNING_INITIAL
  | PLANNING_DETAILED
  | SECURITY_DEFINED
  | WAITING_APPROVAL
  | GENERATING
  | VALIDATING
  | DEPLOYING
  | ACTIVE
  | PAUSED
  | FAILED
  | DELETED
deriving DecidableEq, Repr

/-- RiskLevel enum from `types.ts`. -/
inductive RiskLevel
  | SAFE
  | MODERATE
  | SENSITIVE
  | CRITICAL
deriving DecidableEq, Repr

/-- ApprovalType enum from `types.ts`. -/
inductive ApprovalType
  | INITIAL_PLAN
  | DETAILED_PLAN
  | SECURITY_RULES
  | DEPLOYMENT
  | MODIFICATION
  | DELETION
deriving DecidableEq, Repr

/-- ApprovalStatus enum from `types.ts`. -/
inductive ApprovalStatus
  | PENDING
  | APPROVED
  | REJECTED
  | TIMEOUT
deriving DecidableEq, Repr

/-- The `VALID_TRANSITIONS` table of `state.manager.ts` (lines 6-38),
row by row. -/
def VALID_TRANSITIONS : AgentState → List AgentState
  | .REQUESTED => [.PLANNING_INITIAL, .FAILED]
  | .PLANNING_INITIAL => [.PLANNING_DETAILED, .WAITING_APPROVAL, .FAILED]
  | .PLANNING_DETAILED => [.SECURITY_DEFINED, .FAILED]
  | .SECURITY_DEFINED => [.WAITING_APPROVAL, .FAILED]
  | .WAITING_APPROVAL => [.GENERATING, .PLANNING_DETAILED, .FAILED]
  | .GENERATING => [.VALIDATING, .FAILED]
  | .VALIDATING => [.DEPLOYING, .GENERATING, .FAILED]
  | .DEPLOYING => [.ACTIVE, .FAILED]
  | .ACTIVE => [.PAUSED, .DELETED, .FAILED]
  | .PAUSED => [.ACTIVE, .DELETED]
  | .FAILED => [.REQUESTED, .GENERATING, .DELETED]
  | .DELETED => []

/-- StateManager.isValidTransition: `VALID_TRANSITIONS[fromState].includes(toState)`. -/
def isValidTransition (fromState toState : AgentState) : Bool :=
  (VALID_TRANSITIONS fromState).contains toState

/-- An agent row as read through `memoryEngine.getAgent`: id, name and
current status. -/
structure Agent where
  id : String
  name : String
  status : AgentState
deriving DecidableEq, Repr

/-- The agent table of the persistence store, modelled as a list of rows. -/
abbrev AgentStore := List Agent

/-- MemoryEngine.getAgent: look up an agent by id. -/
def getAgent (store : AgentStore) (agentId : String) : Option Agent :=
  store.find? (fun a => a.id == agentId)

/-- MemoryEngine.updateAgentState: set the status column of the row with
the given id. -/
def updateAgentState (store : AgentStore) (agentId : String)
    (s : AgentState) : AgentStore :=
  store.map (fun a => if a.id == agentId then { a with status := s } else a)

/-- StateManager.transitionState (state.manager.ts lines 75-122): load the
agent, return false if missing; return false leaving the store unchanged
if the edge is invalid; otherwise persist the new state and return true.
All exceptions are caught and turned into a false return, so the model is
a total function. -/
def transitionState (store : AgentStore) (agentId : String)
    (toState : AgentState) : AgentStore × Bool :=
  match getAgent store agentId with
  | none => (store, false)
  | some agent =>
    if isValidTransition agent.status toState then
      (updateAgentState store agentId toState, true)
    else
      (store, false)

/-- StateManager.transitionToFailed (state.manager.ts lines 127-145): if
the agent exists, set its state to FAILED unconditionally — the function
performs no check on the current state. -/
def transitionToFailed (store : AgentStore) (agentId : String) : AgentStore :=
  match getAgent store agentId with
  | none => store
  | some _ => updateAgentState store agentId .FAILED

/-- Allowed-set for WAITING_APPROVAL as the specification's transition
graph gives it (spec section 4.1): GENERATING, PLANNING_DETAILED, FAILED
and DELETED ("allow cancellation while pending").  Written from the
spec's words, to be compared with `VALID_TRANSITIONS`. -/
def specAllowedWaitingApproval : List AgentState :=
  [.GENERATING, .PLANNING_DETAILED, .FAILED, .DELETED]

lemma isValidTransition_iff (f t : AgentState) :
    isValidTransition f t = true ↔ t ∈ VALID_TRANSITIONS f := by
  simp [isValidTransition, List.contains_iff_exists_mem_beq, beq_iff_eq]

lemma getAgent_updateAgentState (store : AgentStore) (agentId : String)
    (s : AgentState) :
    getAgent (updateAgentState store agentId s) agentId =
      (getAgent store agentId).map (fun a => { a with status := s }) := by
  induction store with
  | nil => rfl
  | cons a rest ih =>
    by_cases h : a.id = agentId
    · have hb : (a.id == agentId) = true := beq_iff_eq.mpr h
      simp only [updateAgentState, List.map_cons, getAgent] at ih ⊢
      rw [List.find?_cons_of_pos, List.find?_cons_of_pos]
      · simp [hb]
      · exact hb
      · simp [hb]
    · have hb : (a.id == agentId) = false := by simp [h]
      simp only [updateAgentState, List.map_cons, getAgent] at ih ⊢
      rw [List.find?_cons_of_neg, List.find?_cons_of_neg]
      · exact ih
      · simp [hb]
      · simp [hb]

/-- C1: the claim states that the allowed-set of WAITING_APPROVAL contains
DELETED (the spec's transition graph).  In the code, the
`VALID_TRANSITIONS` entry for WAITING_APPROVAL is only
[GENERATING, PLANNING_DETAILED, FAILED], so `transitionState` on an agent
in WAITING_APPROVAL with target DELETED returns false and leaves the
store unchanged, although DELETED is in the spec's allowed-set. -/
theorem C1_claim_counterexample :
    AgentState.DELETED ∈ specAllowedWaitingApproval ∧
    transitionState [⟨"a1", "alpha", .WAITING_APPROVAL⟩] "a1" .DELETED =
      ([⟨"a1", "alpha", .WAITING_APPROVAL⟩], false) := by
  decide

/-- C1 (amended): `transitionState` returns true iff the agent exists and
the target state is in the `VALID_TRANSITIONS` row of its current state,
where the WAITING_APPROVAL row is [GENERATING, PLANNING_DETAILED, FAILED]
(no DELETED) and the DELETED row is empty; on success the store holds the
new state, and on rejection (invalid edge or unknown agent) the store is
unchanged and no exception escapes (the model is a total function). -/
theorem C1_amended_transition_iff_table :
    ∀ (store : AgentStore) (agentId : String) (toState : AgentState),
      ((transitionState store agentId toState).2 = true ↔
        ∃ ag, getAgent store agentId = some ag ∧
          toState ∈ VALID_TRANSITIONS ag.status) ∧
      ((transitionState store agentId toState).1 =
        if (transitionState store agentId toState).2 = true then
          updateAgentState store agentId toState
        else store) ∧
      VALID_TRANSITIONS .WAITING_APPROVAL =
        [.GENERATING, .PLANNING_DETAILED, .FAILED] ∧
      VALID_TRANSITIONS .DELETED = [] := by
  intro store agentId toState
  refine ⟨?_, ?_, rfl, rfl⟩
  · rcases hg : getAgent store agentId with _ | ag
    · simp [transitionState, hg]
    · by_cases hv : isValidTransition ag.status toState = true
      · simp only [transitionState, hg, hv, if_true]
        exact ⟨fun _ => ⟨ag, rfl, (isValidTransition_iff _ _).mp hv⟩,
          fun _ => trivial⟩
      · simp only [transitionState, hg, hv, if_false, Bool.false_eq_true,
          false_iff]
        rintro ⟨ag2, hag2, hmem⟩
        injection hag2 with h2
        subst h2
        exact hv ((isValidTransition_iff _ _).mpr hmem)
  · rcases hg : getAgent store agentId with _ | ag
    · simp [transitionState, hg]
    · by_cases hv : isValidTransition ag.status toState = true
      · simp [transitionState, hg, hv]
      · simp [transitionState, hg, hv]

/-- C5: the claim states that `transitionToFailed` does not move a DELETED
agent to FAILED.  In the code, `transitionToFailed` only checks that the
agent exists and then writes FAILED unconditionally, so a DELETED agent is
moved to FAILED. -/
theorem C5_claim_counterexample :
    getAgent (transitionToFailed [⟨"a2", "beta", .DELETED⟩] "a2") "a2" =
      some ⟨"a2", "beta", .FAILED⟩ ∧
    AgentState.FAILED ≠ AgentState.DELETED := by
  decide

/-- C5 (amended): DELETED has an empty allowed-set, so `transitionState`
rejects every target for an agent whose current state is DELETED, leaving
the store unchanged; but `transitionToFailed` is permitted from any state
including DELETED, and does move a DELETED agent to FAILED. -/
theorem C5_amended_deleted_rejects_transitions :
    ∀ (store : AgentStore) (agentId : String) (ag : Agent)
      (toState : AgentState),
      getAgent store agentId = some ag → ag.status = .DELETED →
      VALID_TRANSITIONS AgentState.DELETED = [] ∧
      transitionState store agentId toState = (store, false) ∧
      getAgent (transitionToFailed store agentId) agentId =
        some { ag with status := .FAILED } := by
  intro store agentId ag toState hg hst
  refine ⟨rfl, ?_, ?_⟩
  · have hv : isValidTransition ag.status toState = false := by
      rw [hst]
      rfl
    simp [transitionState, hg, hv]
  · simp only [transitionToFailed, hg]
    rw [getAgent_updateAgentState, hg]
    rfl

/-- C5 witness: the amended theorem applied to a one-row store holding a
DELETED agent, with target state ACTIVE. -/
theorem C5_amended_witness :
    VALID_TRANSITIONS AgentState.DELETED = [] ∧
    transitionState [⟨"a3", "gamma", .DELETED⟩] "a3" .ACTIVE =
      ([⟨"a3", "gamma", .DELETED⟩], false) ∧
    getAgent (transitionToFailed [⟨"a3", "gamma", .DELETED⟩] "a3") "a3" =
      some ⟨"a3", "gamma", .FAILED⟩ :=
  C5_amended_deleted_rejects_transitions
    [⟨"a3", "gamma", .DELETED⟩] "a3" ⟨"a3", "gamma", .DELETED⟩ .ACTIVE
    (by decide) rfl

/-- ApprovalEngine.shouldRequestApproval (approval.engine.ts lines
135-178): the cascade of early returns, in source order. -/
def shouldRequestApproval (riskLevel : RiskLevel)
    (approvalType : ApprovalType) : Bool :=
  if riskLevel = .CRITICAL then true
  else if riskLevel = .SENSITIVE then true
  else if riskLevel = .MODERATE ∧
      (approvalType = .DEPLOYMENT ∨ approvalType = .SECURITY_RULES) then true
  else if approvalType = .MODIFICATION ∨ approvalType = .DELETION then true
  else if riskLevel = .SAFE ∧ approvalType = .INITIAL_PLAN then false
  else if approvalType = .DETAILED_PLAN then true
  else false

/-- The truth table claimed by the spec for shouldRequestApproval, written
from the spec's words as an ordered decision list: CRITICAL or SENSITIVE
always true; MODERATE true for DEPLOYMENT and SECURITY_RULES;
MODIFICATION and DELETION always true; SAFE with INITIAL_PLAN false; any
remaining combination true iff the type is DETAILED_PLAN. -/
def shouldRequestApprovalSpec (riskLevel : RiskLevel)
    (approvalType : ApprovalType) : Bool :=
  if riskLevel = .CRITICAL ∨ riskLevel = .SENSITIVE then true
  else if riskLevel = .MODERATE ∧
      (approvalType = .DEPLOYMENT ∨ approvalType = .SECURITY_RULES) then true
  else if approvalType = .MODIFICATION ∨ approvalType = .DELETION then true
  else if riskLevel = .SAFE ∧ approvalType = .INITIAL_PLAN then false
  else decide (approvalType = .DETAILED_PLAN)

/-- C2: shouldRequestApproval returns exactly the truth table the spec
gives, on all 24 combinations of risk level and approval type. -/
theorem C2_shouldRequestApproval_matches_spec :
    ∀ (riskLevel : RiskLevel) (approvalType : ApprovalType),
      shouldRequestApproval riskLevel approvalType =
        shouldRequestApprovalSpec riskLevel approvalType := by
  intro riskLevel approvalType
  cases riskLevel <;> cases approvalType <;> rfl

/-- An approval row as read through `memoryEngine.getApproval`. -/
structure Approval where
  id : String
  agent_id : String
  status : ApprovalStatus
deriving DecidableEq, Repr

/-- The approvals table of the persistence store. -/
abbrev ApprovalStore := List Approval

/-- MemoryEngine.getApproval: look up an approval by id. -/
def getApproval (store : ApprovalStore) (approvalId : String) :
    Option Approval :=
  store.find? (fun ap => ap.id == approvalId)

/-- MemoryEngine.updateApprovalStatus (memory.engine.ts lines 186-208): an
unconditional UPDATE of the row with the given id — no guard on the
row's current status. -/
def updateApprovalStatus (store : ApprovalStore) (approvalId : String)
    (status : ApprovalStatus) : ApprovalStore :=
  store.map (fun ap =>
    if ap.id == approvalId then { ap with status := status } else ap)

/-- ApprovalEngine.processApproval (approval.engine.ts lines 278-316):
persists the given resolution through updateApprovalStatus and then sends
a notice; this is its effect on the approvals table. -/
def processApproval (store : ApprovalStore) (approvalId : String)
    (status : ApprovalStatus) : ApprovalStore :=
  updateApprovalStatus store approvalId status

/-- C4: the claim states that a record that has left PENDING is terminal.
A record already resolved as TIMEOUT is changed to APPROVED by a later
processApproval call, because updateApprovalStatus carries no guard. -/
theorem C4_claim_counterexample :
    getApproval (processApproval [⟨"ap1", "a1", .TIMEOUT⟩] "ap1" .APPROVED)
        "ap1" = some ⟨"ap1", "a1", .APPROVED⟩ ∧
    ApprovalStatus.TIMEOUT ≠ ApprovalStatus.PENDING ∧
    ApprovalStatus.APPROVED ≠ ApprovalStatus.TIMEOUT := by
  decide

/-- C4 (amended): processApproval always sets the record's status to the
given value, whatever the current status is — including records that have
already left PENDING — so the resolved status is not terminal. -/
theorem C4_amended_processApproval_overwrites :
    ∀ (store : ApprovalStore) (approvalId : String)
      (status : ApprovalStatus),
      getApproval (processApproval store approvalId status) approvalId =
        (getApproval store approvalId).map
          (fun ap => { ap with status := status }) := by
  intro store approvalId status
  induction store with
  | nil => rfl
  | cons ap rest ih =>
    by_cases h : ap.id = approvalId
    · have hb : (ap.id == approvalId) = true := beq_iff_eq.mpr h
      simp only [processApproval, updateApprovalStatus, List.map_cons,
        getApproval] at ih ⊢
      rw [List.find?_cons_of_pos, List.find?_cons_of_pos]
      · simp [hb]
      · exact hb
      · simp [hb]
    · have hb : (ap.id == approvalId) = false := by simp [h]
      simp only [processApproval, updateApprovalStatus, List.map_cons,
        getApproval] at ih ⊢
      rw [List.find?_cons_of_neg, List.find?_cons_of_neg]
      · exact ih
      · simp [hb]
      · simp [hb]

/-- Poll interval of ApprovalEngine.waitForApproval: `pollIntervalMs = 5000`. -/
def pollIntervalMs : Nat := 5000

/-- Number of loop iterations of waitForApproval: the loop body runs for
each poll instant `i * pollIntervalMs` strictly below `timeoutMs`. -/
def numPolls (timeoutMs : Nat) : Nat :=
  (timeoutMs + pollIntervalMs - 1) / pollIntervalMs

/-- Outcome of waitForApproval: the thrown not-found error, the resolved
status returned from inside the loop, or the TIMEOUT return after the
deadline. -/
inductive WaitResult
  | notFound
  | resolved (s : ApprovalStatus)
  | timedOut
deriving DecidableEq, Repr

/-- ApprovalEngine.waitForApproval loop (approval.engine.ts lines
232-273), with the store's view at wall-clock time t given by `statusAt t`:
at poll i the record is read at time `i * pollIntervalMs`; a missing
record throws, a non-PENDING status is returned, PENDING sleeps and polls
again; once the deadline elapses the record is marked TIMEOUT (second
component true) and TIMEOUT is returned.  `fuel` is the number of
remaining polls, `i` the current poll index. -/
def waitPoll (statusAt : Nat → Option ApprovalStatus) :
    Nat → Nat → WaitResult × Bool
  | 0, _ => (.timedOut, true)
  | fuel + 1, i =>
    match statusAt (i * pollIntervalMs) with
    | none => (.notFound, false)
    | some .PENDING => waitPoll statusAt fuel (i + 1)
    | some s => (.resolved s, false)

/-- ApprovalEngine.waitForApproval: run the poll loop from index 0 with one
poll per instant `i * pollIntervalMs < timeoutMs`. -/
def waitForApproval (statusAt : Nat → Option ApprovalStatus)
    (timeoutMs : Nat) : WaitResult × Bool :=
  waitPoll statusAt (numPolls timeoutMs) 0

lemma lt_numPolls_iff (timeoutMs i : Nat) :
    i < numPolls timeoutMs ↔ i * pollIntervalMs < timeoutMs := by
  unfold numPolls pollIntervalMs
  rw [Nat.lt_iff_add_one_le, Nat.le_div_iff_mul_le (by norm_num)]
  omega

lemma waitPoll_timedOut_iff (statusAt : Nat → Option ApprovalStatus) :
    ∀ (fuel i : Nat),
      (waitPoll statusAt fuel i).1 = .timedOut ↔
        ∀ j, i ≤ j → j < i + fuel →
          statusAt (j * pollIntervalMs) = some .PENDING := by
  intro fuel
  induction fuel with
  | zero =>
    intro i
    constructor
    · intro _ j hij hj
      omega
    · intro _
      rfl
  | succ fuel ih =>
    intro i
    rcases hs : statusAt (i * pollIntervalMs) with _ | s
    · simp only [waitPoll, hs]
      constructor
      · intro h
        exact absurd h (by simp)
      · intro h
        have hp := h i (le_refl i) (by omega)
        rw [hs] at hp
        exact absurd hp (by simp)
    · rcases s with _ | _ | _ | _
      · simp only [waitPoll, hs]
        rw [ih (i + 1)]
        constructor
        · intro h j hij hj
          rcases Nat.eq_or_lt_of_le hij with heq | hlt
          · rw [← heq]
            exact hs
          · exact h j hlt (by omega)
        · intro h j hij hj
          exact h j (by omega) (by omega)
      all_goals
        simp only [waitPoll, hs]
        constructor
        · intro h
          exact absurd h (by simp)
        · intro h
          have hp := h i (le_refl i) (by omega)
          rw [hs] at hp
          exact absurd hp (by simp)

lemma waitPoll_marked_iff (statusAt : Nat → Option ApprovalStatus) :
    ∀ (fuel i : Nat),
      (waitPoll statusAt fuel i).2 = true ↔
        (waitPoll statusAt fuel i).1 = .timedOut := by
  intro fuel
  induction fuel with
  | zero =>
    intro i
    simp [waitPoll]
  | succ fuel ih =>
    intro i
    rcases hs : statusAt (i * pollIntervalMs) with _ | s
    · simp [waitPoll, hs]
    · rcases s with _ | _ | _ | _
      · simp only [waitPoll, hs]
        exact ih (i + 1)
      all_goals simp [waitPoll, hs]

lemma waitPoll_resolved_iff (statusAt : Nat → Option ApprovalStatus) :
    ∀ (fuel i : Nat) (s : ApprovalStatus),
      (waitPoll statusAt fuel i).1 = .resolved s ↔
        ∃ j, i ≤ j ∧ j < i + fuel ∧
          statusAt (j * pollIntervalMs) = some s ∧ s ≠ .PENDING ∧
          ∀ k, i ≤ k → k < j →
            statusAt (k * pollIntervalMs) = some .PENDING := by
  intro fuel
  induction fuel with
  | zero =>
    intro i s
    constructor
    · intro h
      exact absurd h (by simp [waitPoll])
    · rintro ⟨j, hij, hj, -⟩
      omega
  | succ fuel ih =>
    intro i s
    rcases hs : statusAt (i * pollIntervalMs) with _ | s'
    · simp only [waitPoll, hs]
      constructor
      · intro h
        exact absurd h (by simp)
      · rintro ⟨j, hij, hj, hstat, hnp, hpend⟩
        rcases Nat.eq_or_lt_of_le hij with heq | hlt
        · rw [← heq] at hstat
          rw [hs] at hstat
          exact absurd hstat (by simp)
        · have hp := hpend i (le_refl i) hlt
          rw [hs] at hp
          exact absurd hp (by simp)
    · rcases s' with _ | _ | _ | _
      · simp only [waitPoll, hs]
        rw [ih (i + 1) s]
        constructor
        · rintro ⟨j, hij, hj, hstat, hnp, hpend⟩
          refine ⟨j, by omega, by omega, hstat, hnp, ?_⟩
          intro k hik hkj
          rcases Nat.eq_or_lt_of_le hik with heq | hlt
          · rw [← heq]
            exact hs
          · exact hpend k hlt hkj
        · rintro ⟨j, hij, hj, hstat, hnp, hpend⟩
          rcases Nat.eq_or_lt_of_le hij with heq | hlt
          · exfalso
            rw [← heq] at hstat
            rw [hs] at hstat
            injection hstat with he
            exact hnp he.symm
          · refine ⟨j, by omega, by omega, hstat, hnp, ?_⟩
            intro k hik hkj
            exact hpend k (by omega) hkj
      all_goals
        simp only [waitPoll, hs]
        constructor
        · intro h
          injection h with he
          refine ⟨i, le_refl i, by omega, ?_, ?_, ?_⟩
          · rw [← he]
            exact hs
          · rw [← he]
            simp
          · intro k hik hki
            omega
        · rintro ⟨j, hij, hj, hstat, hnp, hpend⟩
          rcases Nat.eq_or_lt_of_le hij with heq | hlt
          · rw [← heq] at hstat
            rw [hs] at hstat
            injection hstat with he
            rw [he]
          · have hp := hpend i (le_refl i) hlt
            rw [hs] at hp
            injection hp with he
            exact absurd he (by simp)

lemma waitPoll_notFound_iff (statusAt : Nat → Option ApprovalStatus) :
    ∀ (fuel i : Nat),
      (waitPoll statusAt fuel i).1 = .notFound ↔
        ∃ j, i ≤ j ∧ j < i + fuel ∧
          statusAt (j * pollIntervalMs) = none ∧
          ∀ k, i ≤ k → k < j →
            statusAt (k * pollIntervalMs) = some .PENDING := by
  intro fuel
  induction fuel with
  | zero =>
    intro i
    constructor
    · intro h
      exact absurd h (by simp [waitPoll])
    · rintro ⟨j, hij, hj, -⟩
      omega
  | succ fuel ih =>
    intro i
    rcases hs : statusAt (i * pollIntervalMs) with _ | s'
    · simp only [waitPoll, hs]
      constructor
      · intro _
        exact ⟨i, le_refl i, by omega, hs, fun k hik hki => by omega⟩
      · intro _
        trivial
    · rcases s' with _ | _ | _ | _
      · simp only [waitPoll, hs]
        rw [ih (i + 1)]
        constructor
        · rintro ⟨j, hij, hj, hstat, hpend⟩
          refine ⟨j, by omega, by omega, hstat, ?_⟩
          intro k hik hkj
          rcases Nat.eq_or_lt_of_le hik with heq | hlt
          · rw [← heq]
            exact hs
          · exact hpend k hlt hkj
        · rintro ⟨j, hij, hj, hstat, hpend⟩
          rcases Nat.eq_or_lt_of_le hij with heq | hlt
          · exfalso
            rw [← heq] at hstat
            rw [hs] at hstat
            exact absurd hstat (by simp)
          · refine ⟨j, by omega, by omega, hstat, ?_⟩
            intro k hik hkj
            exact hpend k (by omega) hkj
      all_goals
        simp only [waitPoll, hs]
        constructor
        · intro h
          exact absurd h (by simp)
        · rintro ⟨j, hij, hj, hstat, hpend⟩
          rcases Nat.eq_or_lt_of_le hij with heq | hlt
          · rw [← heq] at hstat
            rw [hs] at hstat
            exact absurd hstat (by simp)
          · have hp := hpend i (le_refl i) hlt
            rw [hs] at hp
            injection hp with he
            exact absurd he (by simp)

/-- An approval store history where the record is PENDING strictly before
6000 ms and APPROVED from 6000 ms on. -/
def exampleStatusAt : Nat → Option ApprovalStatus := fun t =>
  if t < 6000 then some .PENDING else some .APPROVED

/-- C6: the claim states waitForApproval returns TIMEOUT iff the status is
still PENDING when the deadline elapses.  With a 7000 ms deadline the loop
polls only at 0 ms and 5000 ms; a record resolved APPROVED at 6000 ms —
before the deadline, and not PENDING at the deadline — still yields
TIMEOUT (and the record is overwritten to TIMEOUT). -/
theorem C6_claim_counterexample :
    exampleStatusAt 6000 = some .APPROVED ∧
    exampleStatusAt 6999 = some .APPROVED ∧
    (6000 : Nat) < 7000 ∧
    waitForApproval exampleStatusAt 7000 = (.timedOut, true) ∧
    WaitResult.timedOut ≠ WaitResult.resolved .APPROVED := by
  decide

/-- C6 (amended): waitForApproval polls at the instants
i * pollIntervalMs < timeoutMs, and returns TIMEOUT iff every such poll
observes PENDING — a resolution arriving after the last poll but before
the deadline is missed; the stored record is marked TIMEOUT exactly in the
TIMEOUT case; a resolved status is returned iff it is the first polled
non-PENDING status; the not-found error is raised iff some poll finds the
record missing with every earlier poll PENDING. -/
theorem C6_amended_waitForApproval_poll_semantics :
    ∀ (statusAt : Nat → Option ApprovalStatus) (timeoutMs : Nat),
      (∀ i, i < numPolls timeoutMs ↔ i * pollIntervalMs < timeoutMs) ∧
      ((waitForApproval statusAt timeoutMs).1 = .timedOut ↔
        ∀ i, i < numPolls timeoutMs →
          statusAt (i * pollIntervalMs) = some .PENDING) ∧
      ((waitForApproval statusAt timeoutMs).2 = true ↔
        (waitForApproval statusAt timeoutMs).1 = .timedOut) ∧
      (∀ s, (waitForApproval statusAt timeoutMs).1 = .resolved s ↔
        ∃ i, i < numPolls timeoutMs ∧
          statusAt (i * pollIntervalMs) = some s ∧ s ≠ .PENDING ∧
          ∀ k, k < i → statusAt (k * pollIntervalMs) = some .PENDING) ∧
      ((waitForApproval statusAt timeoutMs).1 = .notFound ↔
        ∃ i, i < numPolls timeoutMs ∧
          statusAt (i * pollIntervalMs) = none ∧
          ∀ k, k < i → statusAt (k * pollIntervalMs) = some .PENDING) := by
  intro statusAt timeoutMs
  refine ⟨fun i => lt_numPolls_iff timeoutMs i, ?_, ?_, ?_, ?_⟩
  · rw [waitForApproval, waitPoll_timedOut_iff]
    constructor
    · intro h i hi
      exact h i (Nat.zero_le i) (by omega)
    · intro h j _ hj
      exact h j (by omega)
  · exact waitPoll_marked_iff statusAt (numPolls timeoutMs) 0
  · intro s
    rw [waitForApproval, waitPoll_resolved_iff]
    constructor
    · rintro ⟨j, -, hj, hstat, hnp, hpend⟩
      exact ⟨j, by omega, hstat, hnp, fun k hk =>
        hpend k (Nat.zero_le k) hk⟩
    · rintro ⟨j, hj, hstat, hnp, hpend⟩
      exact ⟨j, Nat.zero_le j, by omega, hstat, hnp, fun k _ hk =>
        hpend k hk⟩
  · rw [waitForApproval, waitPoll_notFound_iff]
    constructor
    · rintro ⟨j, -, hj, hstat, hpend⟩
      exact ⟨j, by omega, hstat, fun k hk => hpend k (Nat.zero_le k) hk⟩
    · rintro ⟨j, hj, hstat, hpend⟩
      exact ⟨j, Nat.zero_le j, by omega, hstat, fun k _ hk => hpend k hk⟩

/-- Default retry ceiling `config.security.maxRetryAttempts` (config.ts
line 122). -/
def maxRetryAttempts : Nat := 3

/-- Observable outcome of one RecoveryEngine.recover call: the boolean it
returns, whether a class-specific strategy was dispatched, the stored
counter value afterwards, the admin error text sent on exhaustion, and
whether/with which reason transitionToFailed was invoked. -/
structure RecoveryOutcome where
  returnValue : Bool
  dispatched : Bool
  newCounter : Nat
  escalationMessage : Option String
  failedTransition : Bool
  failedReason : Option String
deriving DecidableEq, Repr

/-- RecoveryEngine.recover (recovery.engine.ts lines 35-155) projected
onto one (agentId, failureType) counter.  `attempts` is the stored counter
value, `strategySucceeds` the boolean outcome of the dispatched
class-specific strategy (for generation_failure, whether
transitionState(agentId, GENERATING) returned true).  When the counter has
reached maxRetryAttempts the engine sends the admin the error text
`Recovery failed after <attempts> attempts: <failureType>`, calls
transitionToFailed with reason `Recovery failed: <failureType>` and
returns false without dispatching; otherwise it increments the counter,
dispatches, and on success deletes the counter entry (resets to zero); an
exception inside the dispatch is caught and returned as false. -/
def recoverStep (failureType : String) (attempts : Nat)
    (strategySucceeds : Bool) : RecoveryOutcome :=
  if attempts ≥ maxRetryAttempts then
    { returnValue := false
      dispatched := false
      newCounter := attempts
      escalationMessage := some ("Recovery failed after " ++
        toString attempts ++ " attempts: " ++ failureType)
      failedTransition := true
      failedReason := some ("Recovery failed: " ++ failureType) }
  else if strategySucceeds then
    { returnValue := true
      dispatched := true
      newCounter := 0
      escalationMessage := none
      failedTransition := false
      failedReason := none }
  else
    { returnValue := false
      dispatched := true
      newCounter := attempts + 1
      escalationMessage := none
      failedTransition := false
      failedReason := none }

/-- Number of strategy dispatches over a sequence of recover calls for one
(agentId, failureType) pair, starting from counter value c; each entry of
the list is the strategy outcome of the corresponding call. -/
def countDispatches (failureType : String) : Nat → List Bool → Nat
  | _, [] => 0
  | c, b :: bs =>
    (if (recoverStep failureType c b).dispatched then 1 else 0) +
      countDispatches failureType (recoverStep failureType c b).newCounter bs

lemma countDispatches_replicate_false_le (failureType : String) :
    ∀ (k c : Nat),
      countDispatches failureType c (List.replicate k false) ≤
        maxRetryAttempts - c := by
  intro k
  induction k with
  | zero =>
    intro c
    simp [countDispatches]
  | succ k ih =>
    intro c
    rw [List.replicate_succ]
    by_cases hc : maxRetryAttempts ≤ c
    · have hstep : recoverStep failureType c false =
          { returnValue := false
            dispatched := false
            newCounter := c
            escalationMessage := some ("Recovery failed after " ++
              toString c ++ " attempts: " ++ failureType)
            failedTransition := true
            failedReason := some ("Recovery failed: " ++ failureType) } := by
        simp [recoverStep, hc]
      simp only [countDispatches, hstep]
      have := ih c
      simp only [if_neg (by simp : ¬(false = true))]
      omega
    · have hstep : recoverStep failureType c false =
          { returnValue := false
            dispatched := true
            newCounter := c + 1
            escalationMessage := none
            failedTransition := false
            failedReason := none } := by
        simp [recoverStep, hc]
      simp only [countDispatches, hstep]
      have := ih (c + 1)
      simp only [if_true]
      omega

/-- C3: when the per-pair counter has reached the ceiling (3 by default),
recover returns false without dispatching any strategy, sends the admin an
error citing the attempt count and the failure class, and transitions the
agent to FAILED; below the ceiling a successful dispatch resets the
counter to zero; consequently a run of recover calls with no successful
dispatch performs at most 3 dispatches for the pair. -/
theorem C3_recovery_bounded_retry :
    ∀ (failureType : String) (b : Bool) (n k : Nat),
      recoverStep failureType (maxRetryAttempts + n) b =
        { returnValue := false
          dispatched := false
          newCounter := maxRetryAttempts + n
          escalationMessage := some ("Recovery failed after " ++
            toString (maxRetryAttempts + n) ++ " attempts: " ++ failureType)
          failedTransition := true
          failedReason := some ("Recovery failed: " ++ failureType) } ∧
      ((recoverStep failureType 0 true).dispatched = true ∧
        (recoverStep failureType 0 true).newCounter = 0 ∧
        (recoverStep failureType 1 true).newCounter = 0 ∧
        (recoverStep failureType 2 true).newCounter = 0) ∧
      countDispatches failureType 0 (List.replicate k false) ≤ 3 ∧
      maxRetryAttempts = 3 := by
  intro failureType b n k
  refine ⟨?_, ⟨rfl, rfl, rfl, rfl⟩, ?_, rfl⟩
  · simp [recoverStep, Nat.le_add_right]
  · have h := countDispatches_replicate_false_le failureType k 0
    simpa using h

/-- C9: the claim states the exhausted recover call transitions the agent
to FAILED with reason string `Recovery failed after 3 attempts:
generation_failure`.  In the code that string is the admin notification
text; the reason passed to transitionToFailed is `Recovery failed:
generation_failure`. -/
theorem C9_claim_counterexample :
    (recoverStep "generation_failure" 3 false).failedTransition = true ∧
    (recoverStep "generation_failure" 3 false).failedReason =
      some "Recovery failed: generation_failure" ∧
    (recoverStep "generation_failure" 3 false).escalationMessage =
      some "Recovery failed after 3 attempts: generation_failure" ∧
    some "Recovery failed: generation_failure" ≠
      (some "Recovery failed after 3 attempts: generation_failure" :
        Option String) := by
  refine ⟨rfl, rfl, rfl, by decide⟩

/-- C9 (amended): with the generation_failure budget exhausted at counter
value 3, the next recover call dispatches nothing, returns false, notifies
the admin with `Recovery failed after 3 attempts: generation_failure`, and
transitions the agent to FAILED with reason `Recovery failed:
generation_failure`. -/
theorem C9_amended_exhausted_generation_recovery :
    ∀ (b : Bool) (store : AgentStore) (agentId : String) (ag : Agent),
      getAgent store agentId = some ag →
      (recoverStep "generation_failure" 3 b).returnValue = false ∧
      (recoverStep "generation_failure" 3 b).dispatched = false ∧
      (recoverStep "generation_failure" 3 b).failedTransition = true ∧
      (recoverStep "generation_failure" 3 b).escalationMessage =
        some "Recovery failed after 3 attempts: generation_failure" ∧
      (recoverStep "generation_failure" 3 b).failedReason =
        some "Recovery failed: generation_failure" ∧
      getAgent (transitionToFailed store agentId) agentId =
        some { ag with status := .FAILED } := by
  intro b store agentId ag hg
  refine ⟨rfl, rfl, rfl, rfl, rfl, ?_⟩
  simp only [transitionToFailed, hg]
  rw [getAgent_updateAgentState, hg]
  rfl

/-- C9 witness: the amended theorem applied to a one-row store holding
agent echo-bot. -/
theorem C9_amended_witness :
    (recoverStep "generation_failure" 3 false).failedTransition = true ∧
    (recoverStep "generation_failure" 3 false).escalationMessage =
      some "Recovery failed after 3 attempts: generation_failure" ∧
    getAgent (transitionToFailed [⟨"e1", "echo-bot", .GENERATING⟩] "e1")
        "e1" = some ⟨"e1", "echo-bot", .FAILED⟩ := by
  have h := C9_amended_exhausted_generation_recovery false
    [⟨"e1", "echo-bot", .GENERATING⟩] "e1" ⟨"e1", "echo-bot", .GENERATING⟩
    (by decide)
  exact ⟨h.2.2.1, h.2.2.2.1, h.2.2.2.2.2⟩

/-- Observable condition of the spawned child process at the end of the
2000 ms startup grace sleep of deployLocal.  `exitedInGrace`: the process
has already exited, for any reason.  `killSignalSent`: Node's
`ChildProcess.killed` flag, set only when a signal was delivered to the
process via kill(); it is not set when the process exits on its own. -/
structure ProcessCondition where
  exitedInGrace : Bool
  killSignalSent : Bool
deriving DecidableEq, Repr

/-- DeploymentEngine.deployLocal startup check (deployment.engine.ts lines
170-192): after the grace sleep the code tests `childProcess.killed`; when
set it throws "Process failed to start", which the catch block converts to
a failure result; otherwise it returns success.  Result is
(success, error_message). -/
def deployLocalStartupResult (p : ProcessCondition) : Bool × Option String :=
  if p.killSignalSent then (false, some "Process failed to start")
  else (true, none)

/-- C7: a process that exits on its own inside the startup grace window —
so `exitedInGrace` is true but no kill signal was ever sent and
`ChildProcess.killed` stays false — makes deployLocal return success
instead of the failure result {success:false, error:"Process failed to
start"} required by the claim and by the code's own comment "Check if
process is still running". -/
theorem C7_code_bug_grace_window_exit :
    deployLocalStartupResult ⟨true, false⟩ = (true, none) ∧
    ((true, none) : Bool × Option String) ≠
      (false, some "Process failed to start") := by
  decide

/-- Health classification from monitor.engine.ts. -/
inductive HStatus
  | healthy
  | degraded
  | unhealthy
  | unknown
deriving DecidableEq, Repr

/-- Default `config.monitoring.alertErrorThreshold` (config.ts line 109). -/
def alertErrorThreshold : Nat := 10

/-- Health classification of one tick (monitor.engine.ts lines 126-137):
unhealthy when the agent is not running, degraded when the recent error
count exceeds the alert threshold, healthy otherwise. -/
def classify (isRunning : Bool) (errorCount : Nat) : HStatus :=
  if !isRunning then .unhealthy
  else if errorCount > alertErrorThreshold then .degraded
  else .healthy

/-- Appending the tick's result to the session ring buffer (lines 150-155):
push, then drop the oldest entry when the length exceeds 100. -/
def pushHistory (history : List HStatus) (s : HStatus) : List HStatus :=
  let h := history ++ [s]
  if h.length > 100 then h.tail else h

/-- Count of unhealthy entries among the last five of the history —
`healthHistory.slice(-5).filter(unhealthy).length` (lines 317-319). -/
def recentUnhealthyCount (history : List HStatus) : Nat :=
  ((history.drop (history.length - 5)).filter
    (fun s => s == HStatus.unhealthy)).length

/-- Restart attempts made by MonitorEngine.handleUnhealthy (lines
311-350): one DeploymentManager.restart when at least 3 of the last 5
history entries are unhealthy, none otherwise. -/
def handleUnhealthyRestart (history : List HStatus) : Nat :=
  if 3 ≤ recentUnhealthyCount history then 1 else 0

/-- Autonomous restarts attempted by one performHealthCheck tick
(monitor.engine.ts lines 89-183) together with the history after the
tick.  A missing deployment record calls handleUnhealthy on the old
history and returns without recording a result; otherwise the tick
classifies, appends to the ring buffer, and calls handleUnhealthy only
when this tick's own status is unhealthy.  Alert-condition actions are
separate and not counted here. -/
def tickAutonomousRestarts (deploymentPresent isRunning : Bool)
    (errorCount : Nat) (history : List HStatus) : Nat × List HStatus :=
  if !deploymentPresent then
    (handleUnhealthyRestart history, history)
  else
    let st := classify isRunning errorCount
    let h := pushHistory history st
    if st = .unhealthy then (handleUnhealthyRestart h, h) else (0, h)

/-- C8: the claim states the 3-of-5 check is evaluated on every tick.  On
a tick whose own result is healthy (agent running, zero errors) no
autonomous restart is attempted even though 3 of the last 5 recorded
results are unhealthy, because handleUnhealthy is reached only from an
unhealthy tick. -/
theorem C8_claim_counterexample :
    classify true 0 = .healthy ∧
    recentUnhealthyCount
      (pushHistory [.unhealthy, .unhealthy, .unhealthy] (classify true 0)) =
        3 ∧
    (tickAutonomousRestarts true true 0
      [.unhealthy, .unhealthy, .unhealthy]).1 = 0 := by
  decide

/-- C8 (amended): with a deployment record present, a tick attempts
exactly one autonomous restart iff its own result classifies as unhealthy
and at least 3 of the last 5 results, the current one included, are
unhealthy; it never attempts more than one; in particular a tick whose
window holds only 2 unhealthy results out of 5 attempts none. -/
theorem C8_amended_restart_on_unhealthy_tick :
    ∀ (isRunning : Bool) (errorCount : Nat) (history : List HStatus),
      ((tickAutonomousRestarts true isRunning errorCount history).1 = 1 ↔
        (classify isRunning errorCount = .unhealthy ∧
          3 ≤ recentUnhealthyCount
            (pushHistory history (classify isRunning errorCount)))) ∧
      ((tickAutonomousRestarts true isRunning errorCount history).1 = 0 ∨
        (tickAutonomousRestarts true isRunning errorCount history).1 = 1) ∧
      (tickAutonomousRestarts true false 0
        [.unhealthy, .healthy, .healthy, .healthy]).1 = 0 ∧
      recentUnhealthyCount
        (pushHistory [.unhealthy, .healthy, .healthy, .healthy]
          .unhealthy) = 2 := by
  intro isRunning errorCount history
  refine ⟨?_, ?_, by decide, by decide⟩
  · by_cases hst : classify isRunning errorCount = .unhealthy
    · by_cases hcnt : 3 ≤ recentUnhealthyCount
          (pushHistory history (classify isRunning errorCount))
      · rw [hst] at hcnt
        simp [tickAutonomousRestarts, hst, handleUnhealthyRestart, hcnt]
      · rw [hst] at hcnt
        simp [tickAutonomousRestarts, hst, handleUnhealthyRestart, hcnt]
    · simp [tickAutonomousRestarts, hst]
  · by_cases hst : classify isRunning errorCount = .unhealthy
    · by_cases hcnt : 3 ≤ recentUnhealthyCount
          (pushHistory history (classify isRunning errorCount))
      · right
        rw [hst] at hcnt
        simp [tickAutonomousRestarts, hst, handleUnhealthyRestart, hcnt]
      · left
        rw [hst] at hcnt
        simp [tickAutonomousRestarts, hst, handleUnhealthyRestart, hcnt]
    · left
      simp [tickAutonomousRestarts, hst]

/-- Value of a little-endian decimal digit-character list. -/
def digitsValLE : List Char → Nat
  | [] => 0
  | c :: cs => (c.toNat - 48) + 10 * digitsValLE cs

/-- Value of a big-endian decimal digit string, as `parseInt` computes
it. -/
def digitsVal (ds : List Char) : Nat := digitsValLE ds.reverse

/-- The decimal digit character for d. -/
def digitChar (d : Nat) : Char := Char.ofNat (48 + d)

/-- Little-endian decimal digit characters of n (empty for 0). -/
def natDigitsRev (n : Nat) : List Char :=
  if h : n = 0 then []
  else digitChar (n % 10) :: natDigitsRev (n / 10)
termination_by n
decreasing_by exact Nat.div_lt_self (Nat.pos_of_ne_zero h) (by norm_num)

/-- Decimal rendering of n, most significant digit first. -/
def natDigits (n : Nat) : List Char :=
  if n = 0 then ['0'] else (natDigitsRev n).reverse

lemma toNat_digitChar (d : Nat) (h : d < 10) :
    (digitChar d).toNat = 48 + d := by
  interval_cases d <;> rfl

lemma isDigit_digitChar (d : Nat) (h : d < 10) :
    (digitChar d).isDigit = true := by
  interval_cases d <;> rfl

lemma digitsValLE_natDigitsRev (n : Nat) :
    digitsValLE (natDigitsRev n) = n := by
  induction n using Nat.strong_induction_on with
  | _ n ih =>
    by_cases h : n = 0
    · subst h
      simp [natDigitsRev, digitsValLE]
    · rw [natDigitsRev, dif_neg h]
      simp only [digitsValLE]
      rw [ih (n / 10) (Nat.div_lt_self (Nat.pos_of_ne_zero h) (by norm_num))]
      rw [toNat_digitChar _ (Nat.mod_lt n (by norm_num))]
      omega

lemma all_isDigit_natDigitsRev (n : Nat) :
    (natDigitsRev n).all (fun c => c.isDigit) = true := by
  induction n using Nat.strong_induction_on with
  | _ n ih =>
    by_cases h : n = 0
    · subst h
      simp [natDigitsRev]
    · rw [natDigitsRev, dif_neg h]
      rw [List.all_cons]
      rw [isDigit_digitChar _ (Nat.mod_lt n (by norm_num))]
      rw [ih (n / 10) (Nat.div_lt_self (Nat.pos_of_ne_zero h) (by norm_num))]
      rfl

lemma natDigits_ne_nil (n : Nat) : natDigits n ≠ [] := by
  unfold natDigits
  split
  · simp
  · next h =>
    rw [natDigitsRev, dif_neg h]
    simp

lemma natDigits_all_isDigit (n : Nat) :
    (natDigits n).all (fun c => c.isDigit) = true := by
  unfold natDigits
  split
  · rfl
  · rw [List.all_reverse]
    exact all_isDigit_natDigitsRev n

lemma digitsVal_natDigits (n : Nat) : digitsVal (natDigits n) = n := by
  unfold natDigits digitsVal
  split
  · next h =>
    subst h
    rfl
  · rw [List.reverse_reverse]
    exact digitsValLE_natDigitsRev n

/-- Unit-and-digits step of DeploymentEngine.parseMemoryLimit: the regex
`^(\d+)([mg])$/i` requires a nonempty all-digit prefix and a final unit
character m or g (either case); "m" scales by 1024*1024 (MiB), "g" by
1024*1024*1024 (GiB). -/
def parseMemoryAux (u : Char) (digits : List Char) : Option Nat :=
  if digits ≠ [] ∧ digits.all (fun c => c.isDigit) then
    if u = 'm' ∨ u = 'M' then some (digitsVal digits * (1024 * 1024))
    else if u = 'g' ∨ u = 'G' then
      some (digitsVal digits * (1024 * 1024 * 1024))
    else none
  else none

/-- DeploymentEngine.parseMemoryLimit (deployment.engine.ts lines
426-437) on the character list of the limit string: split off the final
unit character and parse the leading digits. -/
def parseMemoryLimitChars (chars : List Char) : Option Nat :=
  match chars.reverse with
  | [] => none
  | u :: revDigits => parseMemoryAux u revDigits.reverse

/-- DeploymentEngine.parseMemoryLimit on a string. -/
def parseMemoryLimit (limit : String) : Option Nat :=
  parseMemoryLimitChars limit.data

/-- Split a character list at the first decimal point: the characters
before it, and the characters after it when one occurs. -/
def splitDot : List Char → List Char × Option (List Char)
  | [] => ([], none)
  | c :: cs =>
    if c = '.' then ([], some cs)
    else ((c :: (splitDot cs).1), (splitDot cs).2)

/-- DeploymentEngine.parseCpuLimit (deployment.engine.ts lines 439-445)
restricted to decimal-fraction literals `<digits>` or `<digits>.<digits>`
(the shapes the spec's conventions produce; parseFloat's full grammar —
signs, exponents, surrounding whitespace — is not modelled).  The value
is multiplied by 1e9 to give NanoCpus, as an exact rational. -/
def parseCpuLimitChars (chars : List Char) : Option Rat :=
  match splitDot chars with
  | (ds, none) =>
    if ds ≠ [] ∧ ds.all (fun c => c.isDigit) then
      some ((digitsVal ds : Rat) * 1000000000)
    else none
  | (ds, some fs) =>
    if ds ≠ [] ∧ fs ≠ [] ∧ ds.all (fun c => c.isDigit) ∧
        fs.all (fun c => c.isDigit) then
      some (((digitsVal ds : Rat) +
        (digitsVal fs : Rat) / (10 : Rat) ^ fs.length) * 1000000000)
    else none

/-- DeploymentEngine.parseCpuLimit on a string. -/
def parseCpuLimit (limit : String) : Option Rat :=
  parseCpuLimitChars limit.data

lemma parseMemoryLimitChars_append_unit (ds : List Char) (u : Char) :
    parseMemoryLimitChars (ds ++ [u]) = parseMemoryAux u ds := by
  unfold parseMemoryLimitChars
  rw [List.reverse_append]
  simp

/-- C10: memory limit "512m" parses to 536870912 bytes and cpu limit
"0.5" to 0.5e9 NanoCpus (half a core); in general `<integer>m` parses to
integer * 2^20 bytes and `<integer>g` to integer * 2^30 bytes, for the
decimal rendering of any integer. -/
theorem C10_resource_limit_parsing :
    ∀ (n : Nat),
      parseMemoryLimit "512m" = some 536870912 ∧
      parseCpuLimit "0.5" = some ((5 : Rat) * 10 ^ 8) ∧
      parseMemoryLimitChars (natDigits n ++ ['m']) = some (n * 2 ^ 20) ∧
      parseMemoryLimitChars (natDigits n ++ ['g']) = some (n * 2 ^ 30) := by
  intro n
  refine ⟨by decide, ?_, ?_, ?_⟩
  · show parseCpuLimitChars ['0', '.', '5'] = some ((5 : Rat) * 10 ^ 8)
    have hsplit : splitDot ['0', '.', '5'] = (['0'], some ['5']) := rfl
    have hv0 : digitsVal ['0'] = 0 := rfl
    have hv5 : digitsVal ['5'] = 5 := rfl
    simp only [parseCpuLimitChars, hsplit]
    rw [if_pos (by decide)]
    rw [hv0, hv5]
    norm_num
  · rw [parseMemoryLimitChars_append_unit]
    unfold parseMemoryAux
    rw [if_pos ⟨natDigits_ne_nil n, natDigits_all_isDigit n⟩,
      if_pos (Or.inl rfl), digitsVal_natDigits]
    norm_num
  · rw [parseMemoryLimitChars_append_unit]
    unfold parseMemoryAux
    rw [if_pos ⟨natDigits_ne_nil n, natDigits_all_isDigit n⟩,
      if_neg (by decide), if_pos (Or.inl rfl), digitsVal_natDigits]
    norm_num

end Saba
